import Mathlib

/-!
Verification of the FAANG pydantics validation engine: a shallow embedding of
the relationship-graph checker, the ontology consistency checker and the
cached OLS lookup layer from `generic_validator_classes.py`,
`specimen_validator.py`, `organoid_validator.py` and `base_validator.py`,
together with proofs about the spec's claims on them.

Conventions of the embedding:
* Python dicts that are used as string-keyed maps become association lists
  (`List (String × α)`); assignment is `dictInsert` (overwrite in place,
  append at the end otherwise), which preserves Python's insertion order.
* Python `requests` calls are modelled by oracle functions passed in as
  arguments (`none`/failure = the `except` branch).
* Absent dictionary keys become `Option` fields; string fields read with
  `dict.get(k, '')` become plain `String` fields where `""` plays the role
  of the absent value exactly as in the source's truthiness tests.
-/

namespace FaangValidation

/-- First-match lookup in an association list (Python `d[k]` / `k in d`). -/
def lookup {α : Type} (m : List (String × α)) (k : String) : Option α :=
  (m.find? (fun kv => kv.1 = k)).map (fun kv => kv.2)

/-- Python dict assignment `d[k] = v`: overwrite in place if the key exists,
otherwise append (insertion order preserved). -/
def dictInsert {α : Type} (m : List (String × α)) (k : String) (v : α) :
    List (String × α) :=
  if (m.find? (fun kv => kv.1 = k)).isSome then
    m.map (fun kv => if kv.1 = k then (k, v) else kv)
  else
    m ++ [(k, v)]

/-- First non-`none` result of `f` over a list (a loop with an early
`return` on success). -/
def firstSome {α β : Type} (l : List α) (f : α → Option β) : Option β :=
  match l with
  | [] => none
  | a :: as =>
    match f a with
    | some b => some b
    | none => firstSome as f

/-- First occurrence index, Python `list.index` made partial-safe
(`None` where Python raises `ValueError`). -/
def idxOf (l : List String) (a : String) : Option Nat :=
  match l with
  | [] => none
  | x :: xs => if x = a then some 0 else (idxOf xs a).map (fun n => n + 1)

/-- `' or '.join(l)` from the relationship error messages. -/
def joinOr (l : List String) : String := String.intercalate " or " l

/-- `', '.join(l)` from the ontology error messages. -/
def joinComma (l : List String) : String := String.intercalate ", " l

/-- Python `str.lower` over the character list (ASCII case mapping, the
same mapping as Lean's `Char.toLower`). -/
def strLower (s : String) : String := String.mk (s.data.map Char.toLower)

/-- Python `str.upper` over the character list. -/
def strUpper (s : String) : String := String.mk (s.data.map Char.toUpper)

/-- Python `str.strip`: drop whitespace from both ends. -/
def strTrim (s : String) : String :=
  String.mk (((s.data.dropWhile Char.isWhitespace).reverse.dropWhile
    Char.isWhitespace).reverse)

/-- Python `str.startswith` over the character lists. -/
def strStartsWith (s p : String) : Bool := p.data.isPrefixOf s.data

/-- `sub` occurs somewhere in `l` (helper for Python's `sub in s`). -/
def listContainsSub (sub : List Char) : List Char → Bool
  | [] => sub.isPrefixOf []
  | c :: cs => sub.isPrefixOf (c :: cs) || listContainsSub sub cs

/-- Python `sub in s` substring test. -/
def containsSub (s sub : String) : Bool := listContainsSub sub.data s.data

/-- Replace the first `'_'` by `':'`; `none` when there is no underscore. -/
def replaceFirstUnderscore : List Char → Option (List Char)
  | [] => none
  | c :: cs =>
    if c = '_' then some (':' :: cs)
    else (replaceFirstUnderscore cs).map (fun l => c :: l)

/-- `term.replace('_', ':', 1) if '_' in term else term`
(`OntologyValidator` and the per-type validators). -/
def termWithColon (term : String) : String :=
  match replaceFirstUnderscore term.data with
  | some l => String.mk l
  | none => term

/-- One OLS search document as read by the validators: only the `label`
and `ontology_name` keys are ever accessed (with `''` defaults). -/
structure OlsDoc where
  label : String
  ontology_name : String
deriving Repr, DecidableEq

/-- `ValidationConfig` from `generic_validator_classes.py` (defaults as in
the source; the integer fields are used only as non-negative bounds). -/
structure ValidationConfig where
  enable_external_biosample_validation : Bool := true
  enable_relationship_chain_validation : Bool := true
  enable_circular_reference_detection : Bool := true
  enable_ols_text_validation : Bool := true
  max_relationship_depth : Nat := 10
  api_timeout : Nat := 10
  treat_missing_biosamples_as_errors : Bool := true
deriving Repr, DecidableEq

/-- The missing-data sentinels of `validate_text_term_consistency`. -/
def sentinels : List String :=
  ["restricted access", "not applicable", "not collected", "not provided"]

/-! ## OntologyValidator -/

/-- `OntologyValidator.fetch_from_ols`, one step over an explicit cache
state. `net term = some docs` models a successful request/parse returning
`data['response']['docs']`; `net term = none` models the `except` branch.
Returns the docs handed to the caller, the new cache and the number of
outbound calls made (0 or 1). -/
def fetch_from_ols (net : String → Option (List OlsDoc)) (cache_enabled : Bool)
    (cache : List (String × List OlsDoc)) (term_id : String) :
    List OlsDoc × List (String × List OlsDoc) × Nat :=
  if cache_enabled ∧ (lookup cache term_id).isSome then
    ((lookup cache term_id).getD [], cache, 0)
  else
    match net term_id with
    | some docs =>
      (docs, if cache_enabled then dictInsert cache term_id docs else cache, 1)
    | none => ([], cache, 1)

/-- Two sequential resolutions of the same `term_id` starting from an empty
cache: the two results and the total number of outbound calls. -/
def fetch_twice (net : String → Option (List OlsDoc)) (cache_enabled : Bool)
    (term_id : String) : List OlsDoc × List OlsDoc × Nat :=
  let r1 := fetch_from_ols net cache_enabled [] term_id
  let r2 := fetch_from_ols net cache_enabled r1.2.1 term_id
  (r1.1, r2.1, r1.2.2 + r2.2.2)

/-- `ValidationResult` (only the fields the claims touch). -/
structure ValidationResult where
  errors : List String
  warnings : List String
  field_path : String
deriving Repr, DecidableEq

/-- `OntologyValidator.validate_ontology_term`. `text = ""` models the
`text=None` default (both are falsy in the source's `if text:`). The OLS
fetch is the `net`-composed lookup, taken here as the resolved docs. -/
def validate_ontology_term (fetch : String → List OlsDoc)
    (term ontology_name text : String) : ValidationResult :=
  let result : ValidationResult :=
    { errors := [], warnings := [], field_path := ontology_name ++ ":" ++ term }
  if term = "restricted access" then result
  else
    let ols_data := fetch term
    if ols_data = [] then
      { result with errors := ["Term " ++ term ++ " not found in OLS"] }
    else if text ≠ "" then
      let ols_labels : List String :=
        (ols_data.filter
          (fun d => strLower d.ontology_name = strLower ontology_name)).map
          (fun d => strLower d.label)
      let ols_labels : List String :=
        if ols_labels = [] then ols_data.map (fun d => strLower d.label)
        else ols_labels
      if strLower text ∉ ols_labels then
        let expected_label := ols_labels.headD "unknown"
        { result with warnings :=
            ["Provided value '" ++ text ++ "' doesn't precisely match '" ++
              expected_label ++ "' for term '" ++ term ++ "'"] }
      else result
    else result

/-- `OntologyValidator.validate_text_term_consistency`.
`expected0 = []` models the `expected_ontologies=None` default (both falsy).
`fetch` is the cached OLS lookup; `[]` is the not-found result. -/
def validate_text_term_consistency (fetch : String → List OlsDoc)
    (text term field_name : String) (expected0 : List String) : List String :=
  if text = "" ∨ term = "" ∨ term ∈ sentinels then []
  else
    let ols_data := fetch term
    if ols_data = [] then
      ["Couldn't find term '" ++ term ++ "' in OLS"]
    else
      let expected1 :=
        if expected0 = [] then
          let twc := termWithColon term
          if strStartsWith twc "EFO:" then ["efo"]
          else if strStartsWith twc "UBERON:" then ["uberon"]
          else if strStartsWith twc "BTO:" then ["bto"]
          else if strStartsWith twc "PATO:" then ["pato"]
          else []
        else expected0
      let expected :=
        if field_name = "developmental_stage" then ["efo", "uberon"]
        else if field_name = "organism_part" then ["uberon", "bto"]
        else if containsSub field_name "health_status" then ["pato", "efo"]
        else expected1
      let term_labels := ols_data.filterMap (fun d =>
        if (expected = [] ∨ strLower d.ontology_name ∈ expected) ∧
            strLower d.label ≠ "" then
          some (strLower d.label)
        else none)
      if term_labels = [] then
        ["Couldn't find label in OLS with ontology name(s): " ++
          (if expected = [] then "any" else joinComma expected)]
      else if strLower text ∉ term_labels then
        ["Provided value '" ++ text ++ "' doesn't precisely match '" ++
          term_labels.headD "unknown" ++ "' for term '" ++ term ++
          "' in field '" ++ field_name ++ "'"]
      else []

/-- `SpecimenValidator._check_text_term_consistency` exactly as it executes:
the function body ends after the sentinel guard (lines 365-366 of
`specimen_validator.py`); the label-matching logic that its docstring
announces is stranded as unreachable code after the `return errors` of
`_check_biosample_references` (lines 399-444), so every call falls through
to Python's implicit `return None`. -/
def specimen_check_text_term_consistency (text term : String)
    (ontology_data : List (String × List OlsDoc)) (field_name : String) :
    Option String :=
  if text = "" ∨ term = "" ∨ term ∈ sentinels then none
  else
    -- the rest of the source function is unreachable dead code; the
    -- arguments below are otherwise unused, exactly as in the source
    let _ := ontology_data
    let _ := field_name
    none

/-! ## RelationshipValidator -/

/-- A flat sample record as read by `RelationshipValidator`: the only keys
accessed are `'Sample Name'`, `'Material'`, `'Derived From'`, `'Child Of'`
and `'Organism'`. `Option` marks key presence (`'Derived From' in sample`);
the `.get(k, '')` reads are plain strings with `""` for the missing case.
`'Child Of'` string values behave as the singleton list. -/
structure RawSample where
  sample_name : String := ""
  material : String := ""
  derived_from : Option String := none
  child_of : Option (List String) := none
  organism : String := ""
deriving Repr, DecidableEq

/-- `RelationshipValidator._extract_sample_name`. -/
def extract_sample_name (s : RawSample) : String := s.sample_name

/-- `RelationshipValidator._extract_material` (falls back to the sample
type when the `Material` value is falsy). -/
def extract_material (s : RawSample) (sample_type : String) : String :=
  if s.material ≠ "" then s.material else sample_type

/-- `RelationshipValidator._extract_derived_from`. -/
def extract_derived_from (s : RawSample) : List String :=
  let refs1 : List String :=
    match s.derived_from with
    | some d => if d ≠ "" ∧ strTrim d ≠ "" then [strTrim d] else []
    | none => []
  let refs2 : List String :=
    (s.child_of.getD []).filterMap (fun p =>
      if p ≠ "" ∧ strTrim p ≠ "" then some (strTrim p) else none)
  (refs1 ++ refs2).filter (fun r => r ≠ "" ∧ strTrim r ≠ "")

/-- `RelationshipValidator._extract_organism`. -/
def extract_organism (s : RawSample) : String := s.organism

/-- A node of `self.relationship_graph`. -/
structure NodeInfo where
  material : String := ""
  relationships : List String := []
  sample_type : String := ""
  organism : String := ""
deriving Repr, DecidableEq

/-- A `self.biosamples_cache` entry as produced by
`_parse_biosample_response` (absent characteristics read back as `""`). -/
structure BioCacheEntry where
  organism : String := ""
  material : String := ""
  relationships : List String := []
deriving Repr, DecidableEq

/-- `RelationshipValidator._build_relationship_graph`. The batch is the
`all_samples` dict in insertion order. -/
def build_relationship_graph (all_samples : List (String × List RawSample)) :
    List (String × NodeInfo) :=
  all_samples.foldl (fun graph st =>
    st.2.foldl (fun graph sample =>
      let name := extract_sample_name sample
      if name = "" then graph
      else
        dictInsert graph name
          { material := extract_material sample st.1,
            relationships := extract_derived_from sample,
            sample_type := st.1,
            organism := extract_organism sample }) graph) []

/-- `ALLOWED_RELATIONSHIPS`: the static material-compatibility table. It is
imported from `constants` (not part of this source tree) in
`generic_validator_classes.py`; the contents below are the identical local
copies in `organoid_validator.py` (lines 87-96), `specimen_validator.py`
(lines 118-127) and `organoid_validation.py`, which also match the spec's
examples. -/
def ALLOWED_RELATIONSHIPS : List (String × List String) :=
  [("organoid", ["specimen from organism", "cell culture", "cell line"]),
   ("organism", ["organism"]),
   ("specimen from organism", ["organism"]),
   ("cell culture", ["specimen from organism", "organism"]),
   ("cell line", ["specimen from organism", "organism"]),
   ("cell specimen", ["specimen from organism", "organism"]),
   ("single cell specimen", ["specimen from organism", "organism"]),
   ("pool of specimens", ["specimen from organism", "organism"])]

/-- `ALLOWED_RELATIONSHIPS.get(material, [])`. -/
def allowedFor (material : String) : List String :=
  (lookup ALLOWED_RELATIONSHIPS material).getD []

/-- The existence error message of `_validate_basic_relationships`. -/
def existenceMsg (ref : String) : String :=
  "Relationships part: no entity '" ++ ref ++ "' found"

/-- The material error message of `_validate_basic_relationships`. -/
def materialMsg (ref : String) (allowed : List String) : String :=
  "Relationships part: referenced entity '" ++ ref ++
    "' does not match condition 'should be " ++ joinOr allowed ++ "'"

/-- `RelationshipValidator._validate_basic_relationships`, as a function of
the already-built graph and BioSamples cache state. -/
def validate_basic_relationships (graph : List (String × NodeInfo))
    (cache : List (String × BioCacheEntry)) (cfg : ValidationConfig)
    (sample : RawSample) (sample_type : String) : List String :=
  let refs := extract_derived_from sample
  refs.foldl (fun errors ref =>
    if ref = "restricted access" then errors
    else if (lookup graph ref).isNone ∧ (lookup cache ref).isNone then
      if strStartsWith (strUpper ref) "SAM" ∧
          ¬ cfg.treat_missing_biosamples_as_errors then errors
      else errors ++ [existenceMsg ref]
    else
      let current_material := extract_material sample sample_type
      let ref_material :=
        match lookup graph ref with
        | some n => n.material
        | none => strLower (((lookup cache ref).map (fun e => e.material)).getD "")
      let allowed := allowedFor current_material
      if ref_material ≠ "" ∧ ref_material ∉ allowed then
        errors ++ [materialMsg ref allowed]
      else errors) []

/-- `path[cycle_start:] + [current]` with the `ValueError` fallback
`[current]` of the inner `has_cycle`. -/
def cycleFrom (path : List String) (current : String) : List String :=
  match idxOf path current with
  | some i => path.drop i ++ [current]
  | none => [current]

/-- The recursive `has_cycle` of `_detect_circular_references`. The fuel
argument makes the Python recursion structural; each recursive step moves an
unvisited graph key into `visited`, so any fuel of at least the number of
graph keys not yet visited plus one computes the Python value
(`hasCycle_stable` below). -/
def hasCycle (graph : List (String × NodeInfo)) :
    Nat → String → List String → List String → Option (List String)
  | 0, _, _, _ => none
  | Nat.succ fuel, current, visited, path =>
    if current ∈ visited then some (cycleFrom path current)
    else
      match lookup graph current with
      | none => none
      | some node =>
        firstSome node.relationships (fun ref =>
          if ref ≠ "restricted access" then
            hasCycle graph fuel ref (visited ++ [current]) (path ++ [current])
          else none)

/-- The cycle error message. -/
def cycleMsg (cycle : List String) : String :=
  "Circular reference detected: " ++ String.intercalate " -> " cycle

/-- `RelationshipValidator._detect_circular_references` (the `if cycle:`
truthiness test also rejects an empty list). -/
def detect_circular_references (graph : List (String × NodeInfo))
    (sample_name : String) : List String :=
  match hasCycle graph (graph.length + 1) sample_name [] [] with
  | some cycle => if cycle = [] then [] else [cycleMsg cycle]
  | none => []

/-- The species mismatch message of `_validate_relationship_chains`. -/
def speciesMsg (current ref current_org ref_org : String) : String :=
  "Species mismatch: child '" ++ current ++ "' (" ++ current_org ++
    ") has different species than parent '" ++ ref ++ "' (" ++ ref_org ++ ")"

/-- The depth error message of `_validate_relationship_chains`. -/
def depthMsg (maxDepth : Nat) : String :=
  "Relationship chain depth exceeds maximum (" ++ toString maxDepth ++ ")"

/-- The recursive `validate_chain` of `_validate_relationship_chains`.
As in the source, the recursion is stopped by the depth check alone; the
fuel argument makes it structural and any fuel of at least
`max_relationship_depth + 2 - depth` computes the Python value
(`validate_chain_stable` below). -/
def validate_chain (graph : List (String × NodeInfo)) (cfg : ValidationConfig) :
    Nat → String → Nat → List String
  | 0, _, _ => []
  | Nat.succ fuel, current, depth =>
    if cfg.max_relationship_depth < depth then [depthMsg cfg.max_relationship_depth]
    else
      match lookup graph current with
      | none => []
      | some node =>
        node.relationships.foldl (fun chain_errors ref =>
          if ref = "restricted access" then chain_errors
          else
            let species_errors :=
              match lookup graph ref with
              | some refNode =>
                if node.sample_type = "organism" ∧
                    refNode.sample_type = "organism" ∧
                    node.organism ≠ "" ∧ refNode.organism ≠ "" ∧
                    node.organism ≠ refNode.organism then
                  [speciesMsg current ref node.organism refNode.organism]
                else []
              | none => []
            chain_errors ++ species_errors ++
              validate_chain graph cfg fuel ref (depth + 1)) []

/-- `RelationshipValidator._validate_relationship_chains`. -/
def validate_relationship_chains (graph : List (String × NodeInfo))
    (cfg : ValidationConfig) (sample_name : String) : List String :=
  validate_chain graph cfg (cfg.max_relationship_depth + 2) sample_name 0

/-- `RelationshipValidator.validate_all_relationships`, as a function of the
post-fetch BioSamples cache state (`fetch_biosample_data` is network I/O). -/
def validate_all_relationships (cache : List (String × BioCacheEntry))
    (cfg : ValidationConfig) (all_samples : List (String × List RawSample)) :
    List (String × List String) :=
  let graph := build_relationship_graph all_samples
  all_samples.foldl (fun validation_errors st =>
    st.2.foldl (fun validation_errors sample =>
      let sample_name := extract_sample_name sample
      if sample_name = "" then validation_errors
      else
        let errors :=
          validate_basic_relationships graph cache cfg sample st.1 ++
          (if cfg.enable_circular_reference_detection then
            detect_circular_references graph sample_name
          else []) ++
          (if cfg.enable_relationship_chain_validation then
            validate_relationship_chains graph cfg sample_name
          else [])
        if errors ≠ [] then dictInsert validation_errors sample_name errors
        else validation_errors) validation_errors) []

/-! ## Per-type relationship checkers
(`SpecimenValidator.validate_derived_from_relationships` and the identical
`OrganoidValidator.validate_derived_from_relationships` step 2) -/

/-- One entry of the local `relationships` dict built in step 1 of
`validate_derived_from_relationships`: the `'relationships'` key is only set
when the extracted reference list is non-empty. -/
structure RelInfo where
  material : String := ""
  relationships : Option (List String) := none
deriving Repr, DecidableEq

/-- Step 2 of `validate_derived_from_relationships` — the same source text
in `specimen_validator.py` (lines 149-179) and `organoid_validator.py`
(lines 118-148): skip nodes without references, skip a node entirely when
any reference is the `"restricted access"` sentinel, otherwise emit
existence/material errors per reference against the collected dict. -/
def checkCollectedStep (relationships : List (String × RelInfo))
    (relationship_errors : List (String × List String))
    (entry : String × RelInfo) : List (String × List String) :=
  match entry.2.relationships with
  | none => relationship_errors
  | some refs =>
    let current_material := entry.2.material
    if refs.any (fun ref => ref = "restricted access") then
      relationship_errors
    else
      let errors := refs.foldl (fun errors ref =>
        if (lookup relationships ref).isNone then
          errors ++ [existenceMsg ref]
        else
          let ref_material :=
            ((lookup relationships ref).map (fun e => e.material)).getD ""
          let allowed := allowedFor current_material
          if ref_material ∉ allowed then errors ++ [materialMsg ref allowed]
          else errors) []
      if errors ≠ [] then dictInsert relationship_errors entry.1 errors
      else relationship_errors

/-- The step-2 loop (see `checkCollectedStep` for one iteration). -/
def check_collected_relationships (relationships : List (String × RelInfo)) :
    List (String × List String) :=
  relationships.foldl (checkCollectedStep relationships) []

/-- A sample as read by `SpecimenValidator`'s extraction helpers, which
probe both the flat keys and the nested
`custom.sample_name.value` / `samples_core.*` / `derived_from.value`
shapes. A field is `some v` when the corresponding (well-formed) key path
is present. -/
structure SpecSample where
  sample_name : Option String := none
  custom_sample_name : Option String := none
  core_sample_description : Option String := none
  material_flat : Option String := none
  core_material : Option String := none
  derived_from_value : Option String := none
  derived_from_flat : Option String := none
  child_of : Option (List String) := none
deriving Repr, DecidableEq

/-- `SpecimenValidator._extract_sample_name`. -/
def spec_extract_sample_name (s : SpecSample) : String :=
  match s.sample_name with
  | some n => n
  | none =>
    match s.custom_sample_name with
    | some n => n
    | none => s.core_sample_description.getD ""

/-- `SpecimenValidator._extract_material`. -/
def spec_extract_material (s : SpecSample) : String :=
  match s.material_flat with
  | some m => m
  | none => s.core_material.getD ""

/-- `SpecimenValidator._extract_derived_from`. -/
def spec_extract_derived_from (s : SpecSample) : List String :=
  let refs1 : List String :=
    match s.derived_from_value with
    | some v => if v ≠ "" ∧ strTrim v ≠ "" then [strTrim v] else []
    | none => []
  let refs2 : List String :=
    match s.derived_from_flat with
    | some d => if d ≠ "" ∧ strTrim d ≠ "" then [strTrim d] else []
    | none => []
  let refs3 : List String :=
    (s.child_of.getD []).filterMap (fun p =>
      if p ≠ "" ∧ strTrim p ≠ "" then some (strTrim p) else none)
  (refs1 ++ refs2 ++ refs3).filter (fun r => r ≠ "" ∧ strTrim r ≠ "")

/-- Step 1 of `SpecimenValidator.validate_derived_from_relationships`. -/
def spec_collect_relationships (all_samples : List (String × List SpecSample)) :
    List (String × RelInfo) :=
  all_samples.foldl (fun relationships st =>
    st.2.foldl (fun relationships sample =>
      let sample_name := spec_extract_sample_name sample
      if sample_name = "" then relationships
      else
        let derived := spec_extract_derived_from sample
        dictInsert relationships sample_name
          { material := spec_extract_material sample,
            relationships := if derived ≠ [] then some derived else none })
      relationships) []

/-- `SpecimenValidator.validate_derived_from_relationships` (its `specimens`
argument is unused in the source; only `all_samples` feeds the check). -/
def spec_validate_derived_from_relationships
    (all_samples : List (String × List SpecSample)) :
    List (String × List String) :=
  check_collected_relationships (spec_collect_relationships all_samples)

/-- A sample as read by `OrganoidValidator`: flat keys only. `sample_name`
is an `Option` because `base_validator.py` distinguishes a missing
`'Sample Name'` key (default `f'{sample_type}_{i}'`). -/
structure OrgSample where
  sample_name : Option String := none
  material : String := ""
  derived_from : Option String := none
  child_of : Option (List String) := none
  organ_model : String := ""
  organ_model_term : String := ""
  organ_part_model : String := ""
  organ_part_model_term : String := ""
deriving Repr, DecidableEq

/-- `OrganoidValidator._extract_sample_name` (`.get('Sample Name', '')`). -/
def org_extract_sample_name (s : OrgSample) : String := s.sample_name.getD ""

/-- `OrganoidValidator._extract_derived_from`. -/
def org_extract_derived_from (s : OrgSample) : List String :=
  let refs1 : List String :=
    match s.derived_from with
    | some d => if d ≠ "" ∧ strTrim d ≠ "" then [strTrim d] else []
    | none => []
  let refs2 : List String :=
    (s.child_of.getD []).filterMap (fun p =>
      if p ≠ "" ∧ strTrim p ≠ "" then some (strTrim p) else none)
  (refs1 ++ refs2).filter (fun r => r ≠ "" ∧ strTrim r ≠ "")

/-- Step 1 of `OrganoidValidator.validate_derived_from_relationships`. -/
def org_collect_relationships (all_samples : List (String × List OrgSample)) :
    List (String × RelInfo) :=
  all_samples.foldl (fun relationships st =>
    st.2.foldl (fun relationships sample =>
      let sample_name := org_extract_sample_name sample
      if sample_name = "" then relationships
      else
        let derived := org_extract_derived_from sample
        dictInsert relationships sample_name
          { material := sample.material,
            relationships := if derived ≠ [] then some derived else none })
      relationships) []

/-- `OrganoidValidator.validate_derived_from_relationships`. -/
def org_validate_derived_from_relationships
    (all_samples : List (String × List OrgSample)) :
    List (String × List String) :=
  check_collected_relationships (org_collect_relationships all_samples)

/-! ## Ontology text consistency (OrganoidValidator) -/

/-- `OrganoidValidator.collect_ontology_ids` — the `ids` set in
first-appearance order. -/
def org_collect_ontology_ids (organoids : List OrgSample) : List String :=
  organoids.foldl (fun ids o =>
    let ids :=
      if o.organ_model_term ≠ "" ∧ o.organ_model_term ≠ "restricted access" ∧
          o.organ_model_term ∉ ids then
        ids ++ [o.organ_model_term]
      else ids
    if o.organ_part_model_term ≠ "" ∧
        o.organ_part_model_term ≠ "restricted access" ∧
        o.organ_part_model_term ∉ ids then
      ids ++ [o.organ_part_model_term]
    else ids) []

/-- `OrganoidValidator.fetch_ontology_data_for_ids`: a term is keyed by its
raw id, looked up after underscore→colon conversion, and only recorded when
OLS returned documents. -/
def org_fetch_ontology_data (fetch : String → List OlsDoc) (ids : List String) :
    List (String × List OlsDoc) :=
  ids.foldl (fun results term_id =>
    if term_id ≠ "" ∧ term_id ≠ "restricted access" then
      let ols_data := fetch (termWithColon term_id)
      if ols_data ≠ [] then dictInsert results term_id ols_data else results
    else results) []

/-- `OrganoidValidator._check_text_term_consistency_flattened`. -/
def org_check_text_term_consistency_flattened (text term : String)
    (ontology_data : List (String × List OlsDoc)) (field_name : String) :
    Option String :=
  if text = "" ∨ term = "" ∨ term = "restricted access" then none
  else
    match lookup ontology_data term with
    | none => some ("Couldn't find term '" ++ term ++ "' in OLS")
    | some docs =>
      let twc := termWithColon term
      let oname : Option String :=
        if strStartsWith twc "UBERON:" then some "UBERON"
        else if strStartsWith twc "BTO:" then some "BTO"
        else none
      let term_labels : List String := docs.filterMap (fun d =>
        match oname with
        | some o =>
          if strLower d.ontology_name = strLower o then some (strLower d.label)
          else none
        | none => some (strLower d.label))
      if term_labels = [] then
        some ("Couldn't find label in OLS with ontology name: " ++
          (match oname with | some o => o | none => "None"))
      else if strLower text ∉ term_labels then
        some ("Provided value '" ++ text ++ "' doesn't precisely match '" ++
          term_labels.headD "" ++ "' for term '" ++ term ++ "' in field '" ++
          field_name ++ "'")
      else none

/-- `OrganoidValidator.validate_ontology_text_consistency`. -/
def org_validate_ontology_text_consistency (fetch : String → List OlsDoc)
    (organoids : List OrgSample) : List (String × List String) :=
  let ontology_data := org_fetch_ontology_data fetch
    (org_collect_ontology_ids organoids)
  (organoids.enum.foldl (fun text_consistency_errors iv =>
    let sample_name := iv.2.sample_name.getD ("organoid_" ++ toString iv.1)
    let errors : List String :=
      (if iv.2.organ_model ≠ "" ∧ iv.2.organ_model_term ≠ "" ∧
          iv.2.organ_model_term ≠ "restricted access" then
        match org_check_text_term_consistency_flattened iv.2.organ_model
            iv.2.organ_model_term ontology_data "organ_model" with
        | some e => [e]
        | none => []
      else []) ++
      (if iv.2.organ_part_model ≠ "" ∧ iv.2.organ_part_model_term ≠ "" ∧
          iv.2.organ_part_model_term ≠ "restricted access" then
        match org_check_text_term_consistency_flattened iv.2.organ_part_model
            iv.2.organ_part_model_term ontology_data "organ_part_model" with
        | some e => [e]
        | none => []
      else [])
    if errors ≠ [] then dictInsert text_consistency_errors sample_name errors
    else text_consistency_errors) [])

/-! ## Validation orchestration (BaseValidator + OrganoidValidator) -/

/-- The `errors_dict` of `BaseValidator.validate_record`. -/
structure ErrorsDict where
  errors : List String := []
  warnings : List String := []
  field_errors : List (String × List String) := []
deriving Repr, DecidableEq

/-- The outcome of the external per-field (pydantic) validation of one
record, `BaseValidator.validate_record`: whether a model instance was built,
plus the populated `errors_dict`. Field validation is an external
collaborator of the core (spec §1, §6), so it enters the embedding as an
oracle of this type. -/
structure FieldOutcome where
  model_ok : Bool
  errors : ErrorsDict
deriving Repr, DecidableEq

/-- An element of `results['valid_{sample_type}s']`. The
`ontology_warnings` key is created on demand in the source; `[]` stands for
the absent key. -/
structure ValidEntry where
  index : Nat
  sample_name : String
  warnings : List String
  relationship_errors : List String
  ontology_warnings : List String
deriving Repr, DecidableEq

/-- An element of `results['invalid_{sample_type}s']`: only `index`,
`sample_name`, `data` and the field-validation `errors` dict are ever
stored — no relationship or ontology key is ever attached to it. -/
structure InvalidEntry where
  index : Nat
  sample_name : String
  errors : ErrorsDict
deriving Repr, DecidableEq

/-- `results['summary']`. -/
structure Summary where
  total : Nat := 0
  valid : Nat := 0
  invalid : Nat := 0
  warnings : Nat := 0
  relationship_errors : Nat := 0
deriving Repr, DecidableEq

/-- The per-sample-type results dict. -/
structure SampleResults where
  valid : List ValidEntry
  invalid : List InvalidEntry
  summary : Summary
deriving Repr, DecidableEq

/-- `BaseValidator.validate_records` — the base pass that
`OrganoidValidator.validate_samples` and
`SpecimenValidator.validate_samples` invoke as `super().validate_samples`
(the base class spells it `validate_records`; it is the only matching base
method and its signature is exactly the one called). -/
def base_validate_records (field_validate : OrgSample → FieldOutcome)
    (sample_type : String) (samples : List OrgSample) : SampleResults :=
  samples.enum.foldl (fun results iv =>
    let sample_name := iv.2.sample_name.getD (sample_type ++ "_" ++ toString iv.1)
    let outcome := field_validate iv.2
    if outcome.model_ok ∧ outcome.errors.errors = [] then
      { results with
        valid := results.valid ++
          [{ index := iv.1, sample_name := sample_name,
             warnings := outcome.errors.warnings,
             relationship_errors := [], ontology_warnings := [] }],
        summary :=
          { results.summary with
            valid := results.summary.valid + 1,
            warnings := results.summary.warnings +
              (if outcome.errors.warnings ≠ [] then 1 else 0) } }
    else
      { results with
        invalid := results.invalid ++
          [{ index := iv.1, sample_name := sample_name,
             errors := outcome.errors }],
        summary := { results.summary with
          invalid := results.summary.invalid + 1 } })
    { valid := [], invalid := [],
      summary := { total := samples.length } }

/-- `OrganoidValidator.validate_samples` (lines 46-82): base pass, then
relationship errors and ontology-text warnings attached — by iterating over
`results['valid_organoids']` only. `all_samples = []` models the falsy
`None` default. -/
def org_validate_samples (field_validate : OrgSample → FieldOutcome)
    (fetch : String → List OlsDoc) (samples : List OrgSample)
    (validate_relationships : Bool)
    (all_samples : List (String × List OrgSample))
    (validate_ontology_text : Bool) : SampleResults :=
  let results := base_validate_records field_validate "organoid" samples
  let results :=
    if validate_relationships ∧ all_samples ≠ [] then
      let relationship_errors := org_validate_derived_from_relationships all_samples
      let upd := results.valid.map (fun org =>
        match lookup relationship_errors org.sample_name with
        | some errs => ({ org with relationship_errors := errs }, 1)
        | none => (org, 0))
      { results with
        valid := upd.map Prod.fst,
        summary := { results.summary with
          relationship_errors :=
            results.summary.relationship_errors + (upd.map Prod.snd).sum } }
    else results
  if validate_ontology_text then
    let text_consistency_errors := org_validate_ontology_text_consistency fetch samples
    let upd := results.valid.map (fun org =>
      match lookup text_consistency_errors org.sample_name with
      | some errs =>
        ({ org with ontology_warnings := org.ontology_warnings ++ errs }, 1)
      | none => (org, 0))
    { results with
      valid := upd.map Prod.fst,
      summary := { results.summary with
        warnings := results.summary.warnings + (upd.map Prod.snd).sum } }
  else results

/-! ## Specification-side reformulations and fixtures -/

/-- The material kind a reference resolves to in
`_validate_basic_relationships`: from the graph node when local, from the
BioSamples cache entry (lower-cased, `""` when absent) otherwise. -/
def refMaterial (graph : List (String × NodeInfo))
    (cache : List (String × BioCacheEntry)) (ref : String) : String :=
  match lookup graph ref with
  | some n => n.material
  | none => strLower (((lookup cache ref).map (fun e => e.material)).getD "")

/-- The finding that `_validate_basic_relationships` contributes for a
single reference: at most one per reference — either an existence error or
a material error. Stated per-reference to express the checker's ordering
contract; `validate_basic_eq_filterMap` proves it equivalent to the loop. -/
def basicFindingFor (graph : List (String × NodeInfo))
    (cache : List (String × BioCacheEntry)) (cfg : ValidationConfig)
    (sample : RawSample) (sample_type : String) (ref : String) : Option String :=
  if ref = "restricted access" then none
  else if (lookup graph ref).isNone ∧ (lookup cache ref).isNone then
    if strStartsWith (strUpper ref) "SAM" ∧
        ¬ cfg.treat_missing_biosamples_as_errors then none
    else some (existenceMsg ref)
  else if refMaterial graph cache ref ≠ "" ∧
      refMaterial graph cache ref ∉
        allowedFor (extract_material sample sample_type) then
    some (materialMsg ref (allowedFor (extract_material sample sample_type)))
  else none

/-- Category of a finding message, read back from the message text, used to
state the spec's claimed per-node ordering of findings. -/
inductive FindingCategory : Type
  | existence
  | material
  | species
  | cycle
  | depthExceeded
  | other
deriving Repr, DecidableEq

/-- Classify a finding message by its fixed message head. -/
def findingCategory (msg : String) : FindingCategory :=
  if strStartsWith msg "Relationships part: no entity" then .existence
  else if strStartsWith msg "Relationships part: referenced entity" then .material
  else if strStartsWith msg "Species mismatch" then .species
  else if strStartsWith msg "Circular reference detected" then .cycle
  else if strStartsWith msg "Relationship chain depth" then .depthExceeded
  else .other

/-- The rank of the order claimed by the spec:
existence → material → species → cycle. -/
def categoryRank : FindingCategory → Nat
  | .existence => 0
  | .material => 1
  | .species => 2
  | .cycle => 3
  | .depthExceeded => 4
  | .other => 5

/-- The spec's claimed ordering of the findings attached to one node. -/
def claimedFindingOrder (errs : List String) : Prop :=
  List.Chain' (fun a b =>
    categoryRank (findingCategory a) ≤ categoryRank (findingCategory b)) errs

/-- A chain of reference hops in the relationship graph: every hop leaves a
node present in the graph, follows one of its `relationships` entries and is
not the `"restricted access"` sentinel. -/
def refChainB (g : List (String × NodeInfo)) : String → List String → Bool
  | _, [] => true
  | cur, r :: rs =>
    match lookup g cur with
    | some n =>
      decide (r ∈ n.relationships) && decide (r ≠ "restricted access") &&
        refChainB g r rs
    | none => false

/-- The findings one reference contributes to one level of
`validate_chain`: nothing for the sentinel, otherwise the species check
followed by the recursive walk. `validate_chain_succ_eq` proves the loop
equal to folding this contribution. -/
def chainContribution (g : List (String × NodeInfo)) (cfg : ValidationConfig)
    (fuel : Nat) (node : NodeInfo) (current : String) (depth : Nat)
    (ref : String) : List String :=
  if ref = "restricted access" then []
  else
    (match lookup g ref with
     | some refNode =>
       if node.sample_type = "organism" ∧ refNode.sample_type = "organism" ∧
           node.organism ≠ "" ∧ refNode.organism ≠ "" ∧
           node.organism ≠ refNode.organism then
         [speciesMsg current ref node.organism refNode.organism]
       else []
     | none => []) ++ validate_chain g cfg fuel ref (depth + 1)

/-- The keys of an association list are pairwise distinct — the invariant
of every dict built with `dictInsert`. -/
def KeysNodup {α : Type} (m : List (String × α)) : Prop :=
  (m.map Prod.fst).Nodup

/-- Number of graph keys not yet visited: the bound on the depth of the
`has_cycle` recursion. -/
def remainingKeys (g : List (String × NodeInfo)) (visited : List String) : Nat :=
  ((g.map Prod.fst).filter (fun k => k ∉ visited)).length

/-- Fixture: the two-node cycle `A ↔ B` (two organisms of the same
species, each listing the other as parent). -/
def gAB : List (String × NodeInfo) :=
  [("A", { material := "organism", relationships := ["B"],
           sample_type := "organism", organism := "Sus scrofa" }),
   ("B", { material := "organism", relationships := ["A"],
           sample_type := "organism", organism := "Sus scrofa" })]

/-- Fixture: `A ↔ B` plus a second cycle `A ↔ C` that the depth-first walk
reaches first (`C` precedes `B` in `A`'s reference list). -/
def gACB : List (String × NodeInfo) :=
  [("A", { relationships := ["C", "B"] }),
   ("B", { relationships := ["A"] }),
   ("C", { relationships := ["A"] })]

/-- Fixture: a batch in which node `A`'s first reference `S` exists with an
incompatible material and its second reference `X` is dangling. -/
def batchC2 : List (String × List RawSample) :=
  [("organoid", [{ sample_name := "A", material := "organoid",
                   derived_from := some "S", child_of := some ["X"] }]),
   ("organism", [{ sample_name := "S", material := "organism" }])]

/-- Fixture: a sample whose reference list is
`["restricted access", "X"]`. -/
def sampleRestrictedMixed : RawSample :=
  { sample_name := "A", child_of := some ["restricted access", "X"] }

/-- Fixture: a sample whose reference list is exactly
`["restricted access"]`. -/
def sampleRestrictedOnly : RawSample :=
  { sample_name := "A", derived_from := some "restricted access" }

/-- Fixture: a sample referencing the dangling identifier `X` twice. -/
def sampleDupRefs : RawSample :=
  { sample_name := "A", child_of := some ["X", "X"] }

/-- Fixture: an organoid sample referencing a fetched BioSample. -/
def sampleDerivedSAMEA1 : RawSample :=
  { sample_name := "A", material := "organoid", derived_from := some "SAMEA1" }

/-- Fixture: a BioSamples cache whose entry for `SAMEA1` has no `material`
characteristic (the parser leaves the key absent, read back as `""`). -/
def cacheNoMaterial : List (String × BioCacheEntry) :=
  [("SAMEA1", { organism := "Sus scrofa" })]

/-- Fixture: a specimen batch whose single node mixes a restricted-access
reference with a dangling one. -/
def specBatchRestricted : List (String × List SpecSample) :=
  [("specimen_from_organism",
    [{ sample_name := some "S1", material_flat := some "specimen from organism",
       derived_from_value := some "restricted access", child_of := some ["X"] }])]

/-- Fixture: an organoid record whose `Derived From` is dangling and whose
field validation fails. -/
def orgBad : OrgSample :=
  { sample_name := some "ORG1", material := "organoid",
    derived_from := some "MISSING" }

/-- Fixture: the external field-validation oracle that rejects `ORG1`
(pydantic reports a missing required field) and accepts everything else. -/
def fieldValidateRejectOrg1 : OrgSample → FieldOutcome := fun s =>
  if s.sample_name = some "ORG1" then
    { model_ok := false, errors := { errors := ["organ_model: Field required"] } }
  else
    { model_ok := true, errors := {} }

/-- Fixture: an OLS oracle resolving every term to the single document
`{label: "adult", ontology_name: "efo"}`. -/
def fetchAdultEfo : String → List OlsDoc := fun _ =>
  [{ label := "adult", ontology_name := "efo" }]

/-- Fixture: an OLS oracle resolving every term to the single document
`{label: "adult", ontology_name: "pato"}` — a source outside the expected
ontologies of `developmental_stage`. -/
def fetchAdultPato : String → List OlsDoc := fun _ =>
  [{ label := "adult", ontology_name := "pato" }]

/-- Fixture: the prefetched `ontology_data` dict handed to
`_check_text_term_consistency` by `validate_ontology_text_consistency`. -/
def ontologyDataAdult : List (String × List OlsDoc) :=
  [("EFO:0001272", [{ label := "adult", ontology_name := "efo" }])]

/-- Fixture: a graph with one node `P` of material `cell culture` — an
allowed parent kind for an organoid. -/
def gMatOK : List (String × NodeInfo) :=
  [("P", { material := "cell culture" })]

/-- Fixture: a graph with one node `P` of material `organism` — a kind
outside the allowed parent set of an organoid. -/
def gMatBad : List (String × NodeInfo) :=
  [("P", { material := "organism" })]

/-- Fixture: an organoid sample deriving from `P`. -/
def sampleDerivedP : RawSample :=
  { sample_name := "A", material := "organoid", derived_from := some "P" }

/-- Fixture: an organism child `A` whose parent `B` has a different
recorded species. -/
def gSpecies : List (String × NodeInfo) :=
  [("A", { material := "organism", relationships := ["B"],
           sample_type := "organism", organism := "Sus scrofa" }),
   ("B", { material := "organism", sample_type := "organism",
           organism := "Bos taurus" })]

/-- Fixture: a node whose reference list is exactly
`["restricted access"]`. -/
def gRestrictedNode : List (String × NodeInfo) :=
  [("A", { material := "organism", relationships := ["restricted access"],
           sample_type := "organism" })]

/-- Fixture: a network oracle whose request always succeeds with the
single `adult`/`efo` document. -/
def netAdultEfo : String → Option (List OlsDoc) := fun _ =>
  some [{ label := "adult", ontology_name := "efo" }]

/-- Fixture: eleven hops around the `A ↔ B` cycle — one more than the
default `max_relationship_depth`. -/
def hops11 : List String :=
  ["B", "A", "B", "A", "B", "A", "B", "A", "B", "A", "B"]

/-! ## Lemmas about the primitives -/

theorem lookup_nil {α : Type} (k : String) : lookup ([] : List (String × α)) k = none := rfl

theorem lookup_cons {α : Type} (e : String × α) (m : List (String × α)) (k : String) :
    lookup (e :: m) k = if e.1 = k then some e.2 else lookup m k := by
  by_cases h : e.1 = k <;> simp [lookup, List.find?_cons, h]

theorem lookup_mem {α : Type} {m : List (String × α)} {k : String} {v : α}
    (h : lookup m k = some v) : (k, v) ∈ m := by
  induction m with
  | nil => simp [lookup] at h
  | cons e es ih =>
    rw [lookup_cons] at h
    by_cases he : e.1 = k
    · rw [if_pos he] at h
      obtain ⟨e1, e2⟩ := e
      simp only [Option.some.injEq] at h
      simp only at he
      subst he
      subst h
      exact List.mem_cons_self _ _
    · rw [if_neg he] at h
      exact List.mem_cons_of_mem _ (ih h)

theorem mem_keys_of_lookup {α : Type} {m : List (String × α)} {k : String} {v : α}
    (h : lookup m k = some v) : k ∈ m.map Prod.fst := by
  exact List.mem_map.mpr ⟨(k, v), lookup_mem h, rfl⟩

theorem lookup_eq_of_mem_nodup {α : Type} {m : List (String × α)} {k : String} {v : α}
    (hnd : (m.map Prod.fst).Nodup) (hmem : (k, v) ∈ m) : lookup m k = some v := by
  induction m with
  | nil => cases hmem
  | cons e es ih =>
    rw [List.map_cons, List.nodup_cons] at hnd
    rw [lookup_cons]
    rcases List.mem_cons.mp hmem with rfl | hmem'
    · simp
    · have he : e.1 ≠ k := by
        intro hk
        exact hnd.1 (hk ▸ List.mem_map.mpr ⟨(k, v), hmem', rfl⟩)
      rw [if_neg he]
      exact ih hnd.2 hmem'

theorem two_le_length_of_lookup_pair {α : Type} {m : List (String × α)}
    {a b : String} {va vb : α} (ha : lookup m a = some va)
    (hb : lookup m b = some vb) (hne : a ≠ b) : 2 ≤ m.length := by
  match m with
  | [] => simp [lookup] at ha
  | [e] =>
    rw [lookup_cons] at ha hb
    by_cases h1 : e.1 = a
    · rw [if_pos h1] at ha
      by_cases h2 : e.1 = b
      · exact absurd (h1 ▸ h2) hne
      · rw [if_neg h2] at hb; simp [lookup] at hb
    · rw [if_neg h1] at ha; simp [lookup] at ha
  | _ :: _ :: _ => simp only [List.length_cons]; omega

theorem lookup_map_replace_ne {α : Type} (m : List (String × α)) (k k' : String)
    (v : α) (h : k' ≠ k) :
    lookup (m.map (fun kv => if kv.1 = k then (k, v) else kv)) k' = lookup m k' := by
  induction m with
  | nil => rfl
  | cons e es ih =>
    rw [List.map_cons, lookup_cons, lookup_cons]
    by_cases he : e.1 = k
    · rw [if_pos he]
      have h1 : ((k, v) : String × α).1 = k' ↔ False := by simp [Ne.symm h]
      have h2 : e.1 = k' ↔ False := by simp [he, Ne.symm h]
      simp only [eq_iff_iff.mpr h1, eq_iff_iff.mpr h2] at *
      simpa using ih

    · rw [if_neg he]
      by_cases hk' : e.1 = k'
      · rw [if_pos hk', if_pos hk']
      · rw [if_neg hk', if_neg hk']
        exact ih

theorem lookup_append_single_ne {α : Type} (m : List (String × α)) (k k' : String)
    (v : α) (h : k' ≠ k) : lookup (m ++ [(k, v)]) k' = lookup m k' := by
  induction m with
  | nil => simp [lookup_cons, lookup_nil, Ne.symm h]
  | cons e es ih =>
    rw [List.cons_append, lookup_cons, lookup_cons]
    by_cases he : e.1 = k'
    · rw [if_pos he, if_pos he]
    · rw [if_neg he, if_neg he]; exact ih

theorem lookup_dictInsert_ne {α : Type} (m : List (String × α)) (k k' : String)
    (v : α) (h : k' ≠ k) : lookup (dictInsert m k v) k' = lookup m k' := by
  rw [dictInsert]
  by_cases hs : (m.find? (fun kv => kv.1 = k)).isSome
  · rw [if_pos hs]; exact lookup_map_replace_ne m k k' v h
  · rw [if_neg hs]; exact lookup_append_single_ne m k k' v h

theorem keys_map_replace {α : Type} (m : List (String × α)) (k : String) (v : α) :
    (m.map (fun kv => if kv.1 = k then (k, v) else kv)).map Prod.fst =
      m.map Prod.fst := by
  rw [List.map_map]
  apply List.map_congr_left
  intro kv _
  by_cases h : kv.1 = k
  · simp [h]
  · simp [h]

theorem keys_dictInsert_nodup {α : Type} (m : List (String × α)) (k : String)
    (v : α) (hnd : (m.map Prod.fst).Nodup) :
    ((dictInsert m k v).map Prod.fst).Nodup := by
  rw [dictInsert]
  by_cases hs : (m.find? (fun kv => kv.1 = k)).isSome
  · rw [if_pos hs, keys_map_replace]; exact hnd
  · rw [if_neg hs]
    have hk : k ∉ m.map Prod.fst := by
      intro hmem
      obtain ⟨kv, hkv, hfst⟩ := List.mem_map.mp hmem
      rw [Option.not_isSome_iff_eq_none, List.find?_eq_none] at hs
      exact hs kv hkv (by simp [hfst])
    simp only [List.map_append, List.map_cons, List.map_nil]
    rw [List.nodup_append]
    refine ⟨hnd, List.nodup_singleton k, ?_⟩
    intro x hx hx'
    simp at hx'
    exact hk (hx' ▸ hx)

theorem firstSome_eq_none_of {α β : Type} {l : List α} {f : α → Option β}
    (h : firstSome l f = none) : ∀ a ∈ l, f a = none := by
  induction l with
  | nil => intro a ha; cases ha
  | cons x xs ih =>
    intro a ha
    simp only [firstSome] at h
    cases hx : f x with
    | some b => rw [hx] at h; cases h
    | none =>
      rw [hx] at h
      rcases List.mem_cons.mp ha with rfl | ha'
      · exact hx
      · exact ih h a ha'

theorem firstSome_congr {α β : Type} {l : List α} {f g : α → Option β}
    (h : ∀ a ∈ l, f a = g a) : firstSome l f = firstSome l g := by
  induction l with
  | nil => rfl
  | cons x xs ih =>
    simp only [firstSome]
    rw [h x (List.mem_cons_self x xs)]
    cases g x with
    | some b => rfl
    | none => exact ih (fun a ha => h a (List.mem_cons_of_mem _ ha))

theorem foldl_congr_of_mem {α β : Type} {l : List α} {f g : β → α → β} {b : β}
    (h : ∀ acc a, a ∈ l → f acc a = g acc a) : l.foldl f b = l.foldl g b := by
  induction l generalizing b with
  | nil => rfl
  | cons x xs ih =>
    simp only [List.foldl_cons]
    rw [h b x (List.mem_cons_self x xs)]
    exact ih (fun acc a ha => h acc a (List.mem_cons_of_mem _ ha))

theorem foldl_opt_append_eq_filterMap {α β : Type} (f : α → Option β) :
    ∀ (l : List α) (acc : List β),
      l.foldl (fun es a => es ++ (f a).toList) acc = acc ++ l.filterMap f := by
  intro l
  induction l with
  | nil => intro acc; simp
  | cons x xs ih =>
    intro acc
    simp only [List.foldl_cons, List.filterMap_cons]
    cases hx : f x with
    | none => simp [ih]
    | some b => simp [ih, List.append_assoc]

theorem mem_foldl_append {α β : Type} (f : α → List β) :
    ∀ (l : List α) (acc : List β) (x : β),
      x ∈ l.foldl (fun a b => a ++ f b) acc ↔ x ∈ acc ∨ ∃ b ∈ l, x ∈ f b := by
  intro l
  induction l with
  | nil => intro acc x; simp
  | cons y ys ih =>
    intro acc x
    simp only [List.foldl_cons, ih, List.mem_append, List.mem_cons]
    constructor
    · rintro (⟨h | h⟩ | ⟨b, hb, hx⟩)
      · exact Or.inl h
      · exact Or.inr ⟨y, Or.inl rfl, h⟩
      · exact Or.inr ⟨b, Or.inr hb, hx⟩
    · rintro (h | ⟨b, rfl | hb, hx⟩)
      · exact Or.inl (Or.inl h)
      · exact Or.inl (Or.inr hx)
      · exact Or.inr ⟨b, hb, hx⟩

/-! ## Lemmas about the error message strings -/

theorem string_append_inj_mid {p s a b : String} (h : p ++ a ++ s = p ++ b ++ s) :
    a = b := by
  have hd := congrArg String.data h
  simp only [String.data_append, List.append_assoc] at hd
  have h1 := List.append_cancel_left hd
  have h2 := List.append_cancel_right h1
  exact String.ext h2

theorem existenceMsg_inj {a b : String} (h : existenceMsg a = existenceMsg b) :
    a = b :=
  string_append_inj_mid h

theorem materialMsg_ne_existenceMsg (r x : String) (al : List String) :
    materialMsg r al ≠ existenceMsg x := by
  intro h
  have hd := congrArg String.data h
  simp only [materialMsg, existenceMsg, String.data_append, List.append_assoc] at hd
  have h20 := congrArg (fun l => l[20]?) hd
  simp only at h20
  rw [List.getElem?_append_left (by decide),
    List.getElem?_append_left (by decide)] at h20
  revert h20
  decide

/-! ## The basic relationship pass as a per-reference map -/

theorem validate_basic_eq_filterMap (g : List (String × NodeInfo))
    (c : List (String × BioCacheEntry)) (cfg : ValidationConfig)
    (s : RawSample) (st : String) :
    validate_basic_relationships g c cfg s st =
      (extract_derived_from s).filterMap (basicFindingFor g c cfg s st) := by
  rw [validate_basic_relationships]
  have hmid :
      (extract_derived_from s).foldl
        (fun es ref => es ++ (basicFindingFor g c cfg s st ref).toList) [] =
      (extract_derived_from s).filterMap (basicFindingFor g c cfg s st) := by
    simpa using
      foldl_opt_append_eq_filterMap (basicFindingFor g c cfg s st)
        (extract_derived_from s) []
  rw [← hmid]
  apply foldl_congr_of_mem
  intro acc ref _
  simp only [basicFindingFor, refMaterial]
  split_ifs <;> simp

theorem basicFindingFor_shape (g : List (String × NodeInfo))
    (c : List (String × BioCacheEntry)) (cfg : ValidationConfig)
    (s : RawSample) (st : String) (ref : String) :
    basicFindingFor g c cfg s st ref = none ∨
    basicFindingFor g c cfg s st ref = some (existenceMsg ref) ∨
    ∃ al, basicFindingFor g c cfg s st ref = some (materialMsg ref al) := by
  simp only [basicFindingFor]
  split_ifs
  · exact Or.inl rfl
  · exact Or.inl rfl
  · exact Or.inr (Or.inl rfl)
  · exact Or.inr (Or.inr ⟨_, rfl⟩)
  · exact Or.inl rfl

theorem count_filterMap_existence {f : String → Option String} {X : String}
    (hX : f X = some (existenceMsg X))
    (hshape : ∀ r, f r = none ∨ f r = some (existenceMsg r) ∨
      ∃ al, f r = some (materialMsg r al)) :
    ∀ refs : List String,
      (refs.filterMap f).count (existenceMsg X) = refs.count X := by
  intro refs
  induction refs with
  | nil => rfl
  | cons r rs ih =>
    rw [List.filterMap_cons]
    by_cases hr : r = X
    · subst hr
      rw [hX]
      simp [List.count_cons, ih]
    · have hrX : existenceMsg r ≠ existenceMsg X := fun h => hr (existenceMsg_inj h)
      rcases hshape r with h | h | ⟨al, h⟩
      · rw [h]
        simp [List.count_cons, ih, hr]
      · rw [h]
        simp [List.count_cons, ih, hrX, hr]
      · rw [h]
        simp [List.count_cons, ih, materialMsg_ne_existenceMsg r X al, hr]

/-! ## Lemmas about the cycle walk -/

theorem cycleFrom_ne_nil (path : List String) (current : String) :
    cycleFrom path current ≠ [] := by
  rw [cycleFrom]
  cases h : idxOf path current with
  | none => simp
  | some i => simp

theorem firstSome_eq_some {α β : Type} {l : List α} {f : α → Option β} {b : β}
    (h : firstSome l f = some b) : ∃ a ∈ l, f a = some b := by
  induction l with
  | nil => cases h
  | cons x xs ih =>
    simp only [firstSome] at h
    cases hx : f x with
    | some b' =>
      rw [hx] at h
      exact ⟨x, List.mem_cons_self x xs, hx.trans h⟩
    | none =>
      rw [hx] at h
      obtain ⟨a, ha, hfa⟩ := ih h
      exact ⟨a, List.mem_cons_of_mem _ ha, hfa⟩

theorem hasCycle_some_ne_nil {g : List (String × NodeInfo)} :
    ∀ {fuel : Nat} {cur : String} {visited path : List String}
      {cy : List String},
      hasCycle g fuel cur visited path = some cy → cy ≠ [] := by
  intro fuel
  induction fuel with
  | zero => intro cur v p cy h; cases h
  | succ f ih =>
    intro cur v p cy h
    simp only [hasCycle] at h
    by_cases hv : cur ∈ v
    · rw [if_pos hv] at h
      simp only [Option.some.injEq] at h
      exact h ▸ cycleFrom_ne_nil p cur
    · rw [if_neg hv] at h
      cases hl : lookup g cur with
      | none => rw [hl] at h; cases h
      | some n =>
        rw [hl] at h
        obtain ⟨r, _, hfr⟩ := firstSome_eq_some h
        by_cases hra : r ≠ "restricted access"
        · rw [if_pos hra] at hfr
          exact ih hfr
        · rw [if_neg hra] at hfr
          cases hfr

theorem hasCycle_none_step {g : List (String × NodeInfo)} {fuel : Nat}
    {cur : String} {v p : List String} {n : NodeInfo}
    (h : hasCycle g (fuel + 1) cur v p = none) (hv : cur ∉ v)
    (hl : lookup g cur = some n) :
    ∀ r ∈ n.relationships, r ≠ "restricted access" →
      hasCycle g fuel r (v ++ [cur]) (p ++ [cur]) = none := by
  intro r hr hrra
  simp only [hasCycle, if_neg hv, hl] at h
  have hnone := firstSome_eq_none_of h r hr
  rwa [if_pos hrra] at hnone

theorem remainingKeys_lt {g : List (String × NodeInfo)} {cur : String}
    {n : NodeInfo} {visited : List String} (hl : lookup g cur = some n)
    (hv : cur ∉ visited) :
    remainingKeys g (visited ++ [cur]) < remainingKeys g visited := by
  rw [remainingKeys, remainingKeys]
  have hfe : ((g.map Prod.fst).filter (fun k => k ∉ visited ++ [cur])) =
      ((g.map Prod.fst).filter (fun k => k ∉ visited)).filter
        (fun k => k ≠ cur) := by
    rw [List.filter_filter]
    apply List.filter_congr
    intro x _
    by_cases h1 : x ∈ visited <;> by_cases h2 : x = cur <;>
      simp [List.mem_append, h1, h2]
  rw [hfe]
  apply List.length_filter_lt_length_iff_exists.mpr
  refine ⟨cur, ?_, by simp⟩
  rw [List.mem_filter]
  exact ⟨mem_keys_of_lookup hl, by simp [hv]⟩

theorem hasCycle_stable {g : List (String × NodeInfo)} :
    ∀ (fuel : Nat) (cur : String) (visited path : List String),
      remainingKeys g visited + 1 ≤ fuel →
      hasCycle g fuel cur visited path =
        hasCycle g (remainingKeys g visited + 1) cur visited path := by
  intro fuel
  induction fuel using Nat.strong_induction_on with
  | _ fuel IH =>
    intro cur visited path hf
    cases fuel with
    | zero => omega
    | succ f =>
      by_cases hv : cur ∈ visited
      · simp only [hasCycle, if_pos hv]
      · simp only [hasCycle, if_neg hv]
        cases hl : lookup g cur with
        | none => rfl
        | some n =>
          apply firstSome_congr
          intro r hr
          by_cases hra : r ≠ "restricted access"
          · rw [if_pos hra, if_pos hra]
            have hlt := remainingKeys_lt hl hv
            have e1 := IH f (by omega) r (visited ++ [cur]) (path ++ [cur])
              (by omega)
            have e2 := IH (remainingKeys g visited) (by omega) r
              (visited ++ [cur]) (path ++ [cur]) (by omega)
            rw [e1, e2]
          · rw [if_neg hra, if_neg hra]

/-! ## Lemmas about the chain walk -/

theorem validate_chain_succ_eq (g : List (String × NodeInfo))
    (cfg : ValidationConfig) (f : Nat) (cur : String) (depth : Nat) :
    validate_chain g cfg (f + 1) cur depth =
      if cfg.max_relationship_depth < depth then
        [depthMsg cfg.max_relationship_depth]
      else
        match lookup g cur with
        | none => []
        | some node =>
          node.relationships.foldl
            (fun acc r => acc ++ chainContribution g cfg f node cur depth r)
            [] := by
  simp only [validate_chain]
  by_cases hd : cfg.max_relationship_depth < depth
  · rw [if_pos hd, if_pos hd]
  · rw [if_neg hd, if_neg hd]
    cases hl : lookup g cur with
    | none => rfl
    | some n =>
      apply foldl_congr_of_mem
      intro acc r _
      by_cases hra : r = "restricted access"
      · simp [chainContribution, hra]
      · simp [chainContribution, hra, List.append_assoc]

theorem validate_chain_stable {g : List (String × NodeInfo)}
    {cfg : ValidationConfig} :
    ∀ (fuel₁ fuel₂ : Nat) (cur : String) (depth : Nat),
      cfg.max_relationship_depth + 2 ≤ depth + fuel₁ → 1 ≤ fuel₁ →
      cfg.max_relationship_depth + 2 ≤ depth + fuel₂ → 1 ≤ fuel₂ →
      validate_chain g cfg fuel₁ cur depth =
        validate_chain g cfg fuel₂ cur depth := by
  intro fuel₁
  induction fuel₁ with
  | zero => intro fuel₂ cur depth _ h1 _ _; omega
  | succ f ih =>
    intro fuel₂ cur depth hc1 _ hc2 hf2
    cases fuel₂ with
    | zero => omega
    | succ f2 =>
      by_cases hd : cfg.max_relationship_depth < depth
      · simp only [validate_chain, if_pos hd]
      · simp only [validate_chain, if_neg hd]
        cases hl : lookup g cur with
        | none => rfl
        | some n =>
          apply foldl_congr_of_mem
          intro acc r _
          by_cases hra : r = "restricted access"
          · rw [if_pos hra, if_pos hra]
          · rw [if_neg hra, if_neg hra]
            have hrec : validate_chain g cfg f r (depth + 1) =
                validate_chain g cfg f2 r (depth + 1) :=
              ih f2 r (depth + 1) (by omega) (by omega) (by omega) (by omega)
            rw [hrec]

theorem validate_chain_shape {g : List (String × NodeInfo)}
    {cfg : ValidationConfig} :
    ∀ (fuel : Nat) (cur : String) (depth : Nat) (e : String),
      e ∈ validate_chain g cfg fuel cur depth →
      (∃ a b oa ob, e = speciesMsg a b oa ob) ∨
        e = depthMsg cfg.max_relationship_depth := by
  intro fuel
  induction fuel with
  | zero => intro cur depth e h; cases h
  | succ f ih =>
    intro cur depth e h
    rw [validate_chain_succ_eq] at h
    by_cases hd : cfg.max_relationship_depth < depth
    · rw [if_pos hd] at h
      simp only [List.mem_singleton] at h
      exact Or.inr h
    · rw [if_neg hd] at h
      cases hl : lookup g cur with
      | none => rw [hl] at h; cases h
      | some n =>
        rw [hl] at h
        rw [mem_foldl_append] at h
        rcases h with h | ⟨r, _, hmem⟩
        · cases h
        · rw [chainContribution] at hmem
          by_cases hra : r = "restricted access"
          · rw [if_pos hra] at hmem; cases hmem
          · rw [if_neg hra] at hmem
            rcases List.mem_append.mp hmem with hsp | hrec
            · cases hlr : lookup g r with
              | none => simp [hlr] at hsp
              | some rn =>
                simp only [hlr] at hsp
                by_cases hcond : n.sample_type = "organism" ∧
                    rn.sample_type = "organism" ∧ n.organism ≠ "" ∧
                    rn.organism ≠ "" ∧ n.organism ≠ rn.organism
                · rw [if_pos hcond] at hsp
                  simp only [List.mem_singleton] at hsp
                  exact Or.inl ⟨cur, r, n.organism, rn.organism, hsp⟩
                · rw [if_neg hcond] at hsp; cases hsp
            · exact ih r (depth + 1) e hrec

theorem depthMsg_mem_of_chain {g : List (String × NodeInfo)}
    {cfg : ValidationConfig} :
    ∀ (hops : List String) (cur : String) (depth fuel : Nat),
      refChainB g cur hops = true →
      depth + hops.length = cfg.max_relationship_depth + 1 →
      cfg.max_relationship_depth + 2 ≤ depth + fuel →
      depthMsg cfg.max_relationship_depth ∈ validate_chain g cfg fuel cur depth := by
  intro hops
  induction hops with
  | nil =>
    intro cur depth fuel _ hlen hfuel
    cases fuel with
    | zero => omega
    | succ f =>
      rw [validate_chain_succ_eq, if_pos (by simp at hlen; omega)]
      simp
  | cons r rs ih =>
    intro cur depth fuel hchain hlen hfuel
    simp only [List.length_cons] at hlen
    cases fuel with
    | zero => omega
    | succ f =>
      simp only [refChainB] at hchain
      cases hl : lookup g cur with
      | none => rw [hl] at hchain; cases hchain
      | some n =>
        rw [hl] at hchain
        simp only [Bool.and_eq_true, decide_eq_true_eq] at hchain
        obtain ⟨⟨hmem, hra⟩, hrest⟩ := hchain
        rw [validate_chain_succ_eq, if_neg (by omega), hl]
        rw [mem_foldl_append]
        refine Or.inr ⟨r, hmem, ?_⟩
        rw [chainContribution, if_neg hra]
        apply List.mem_append.mpr
        exact Or.inr (ih r (depth + 1) f hrest (by omega) (by omega))

/-! ## Lemmas about the per-type checker and dict building -/

theorem foldl_preserves {α β : Type} (P : β → Prop) (step : β → α → β)
    (hstep : ∀ b a, P b → P (step b a)) :
    ∀ (l : List α) (b : β), P b → P (l.foldl step b) := by
  intro l
  induction l with
  | nil => intro b hb; exact hb
  | cons x xs ih => intro b hb; exact ih _ (hstep b x hb)

theorem spec_collect_keys_nodup (all_samples : List (String × List SpecSample)) :
    ((spec_collect_relationships all_samples).map Prod.fst).Nodup := by
  rw [spec_collect_relationships]
  show KeysNodup _
  apply foldl_preserves KeysNodup
  · intro m st hm
    apply foldl_preserves KeysNodup
    · intro m' s hm'
      rw [KeysNodup] at hm' ⊢
      by_cases h : spec_extract_sample_name s = ""
      · simpa [h] using hm'
      · simpa [h] using
          keys_dictInsert_nodup m' (spec_extract_sample_name s) _ hm'
    · exact hm
  · rw [KeysNodup]; simp

theorem lookup_foldl_checkStep_none (rels : List (String × RelInfo))
    (name : String) :
    ∀ (l : List (String × RelInfo)) (acc : List (String × List String)),
      (∀ e ∈ l, e.1 = name →
        e.2.relationships = none ∨
        ∃ refs, e.2.relationships = some refs ∧
          refs.any (fun ref => ref = "restricted access") = true) →
      lookup acc name = none →
      lookup (l.foldl (checkCollectedStep rels) acc) name = none := by
  intro l
  induction l with
  | nil => intro acc _ hacc; exact hacc
  | cons e es ih =>
    intro acc hcond hacc
    rw [List.foldl_cons]
    apply ih _ (fun e' he' => hcond e' (List.mem_cons_of_mem _ he'))
    rw [checkCollectedStep]
    cases hrel : e.2.relationships with
    | none => exact hacc
    | some refs =>
      by_cases hany : refs.any (fun ref => ref = "restricted access") = true
      · simp only [hany, if_true]
        exact hacc
      · simp only [hany, if_false, Bool.false_eq_true]
        have hename : e.1 ≠ name := by
          intro heq
          rcases hcond e (List.mem_cons_self e es) heq with hnone | ⟨refs', hr', ha'⟩
          · rw [hrel] at hnone; cases hnone
          · rw [hrel] at hr'
            cases hr'
            exact hany ha'
        split_ifs
        · rw [lookup_dictInsert_ne _ _ _ _ (Ne.symm hename)]
          exact hacc
        · exact hacc

theorem check_collected_skips_restricted {rels : List (String × RelInfo)}
    {name : String} {info : RelInfo} {refs : List String}
    (hnd : (rels.map Prod.fst).Nodup)
    (hl : lookup rels name = some info)
    (hrefs : info.relationships = some refs)
    (hra : "restricted access" ∈ refs) :
    lookup (check_collected_relationships rels) name = none := by
  rw [check_collected_relationships]
  apply lookup_foldl_checkStep_none
  · intro e he hename
    have hle : lookup rels e.1 = some e.2 := by
      apply lookup_eq_of_mem_nodup hnd
      simpa using he
    rw [hename, hl] at hle
    have he2 : e.2 = info := by
      simpa using hle.symm
    right
    refine ⟨refs, he2 ▸ hrefs, ?_⟩
    rw [List.any_eq_true]
    exact ⟨"restricted access", hra, by simp⟩
  · rfl

/-! ## Claim theorems -/

/-- C10 (corrected, counterexample): with caching enabled, two resolutions
of the same term through `fetch_from_ols` do NOT always make exactly one
external call — when the request fails (`except` branch), nothing is
cached and the second resolution calls out again: two calls in total. -/
theorem cache_idempotence_counterexample :
    (fetch_twice (fun _ => none) true "EFO:0001272").2.2 = 2 ∧
    (fetch_twice (fun _ => none) true "EFO:0001272").2.2 ≠ 1 := by
  exact ⟨rfl, by decide⟩

/-- C10 (amended): with caching enabled, when the external request for the
term succeeds, resolving the same term ID twice performs exactly one
external call and both resolutions return the identical document list;
a failed fetch is not cached and is retried instead. -/
theorem cache_idempotence_amended (net : String → Option (List OlsDoc))
    (term : String) (docs : List OlsDoc) (h : net term = some docs) :
    fetch_twice net true term = (docs, docs, 1) := by
  simp [fetch_twice, fetch_from_ols, h, lookup, dictInsert]

/-- C10 witness: a concrete successful oracle run through the amended
theorem. -/
theorem cache_idempotence_witness :
    netAdultEfo "EFO:0001272" = some [{ label := "adult", ontology_name := "efo" }] ∧
    fetch_twice netAdultEfo true "EFO:0001272" =
      ([{ label := "adult", ontology_name := "efo" }],
       [{ label := "adult", ontology_name := "efo" }], 1) :=
  ⟨rfl, cache_idempotence_amended netAdultEfo "EFO:0001272" _ rfl⟩

/-- C9 (code_bug): for a term resolving to the label set `{"adult"}`, the
generic checker `validate_text_term_consistency` accepts `"Adult"`
(case-insensitive) and warns on `"juvenile"` naming `"adult"` — exactly as
the claim states; but `SpecimenValidator._check_text_term_consistency`,
whose matching logic is stranded as unreachable code after the `return` of
`_check_biosample_references`, returns `None` for `"juvenile"` and can
never produce the warning. -/
theorem text_term_consistency_code_bug :
    validate_text_term_consistency fetchAdultEfo "Adult" "EFO:0001272"
      "developmental_stage" [] = [] ∧
    validate_text_term_consistency fetchAdultEfo "juvenile" "EFO:0001272"
      "developmental_stage" [] =
      ["Provided value 'juvenile' doesn't precisely match 'adult' " ++
        "for term 'EFO:0001272' in field 'developmental_stage'"] ∧
    specimen_check_text_term_consistency "juvenile" "EFO:0001272"
      ontologyDataAdult "developmental_stage" = none := by
  refine ⟨by decide, by decide, by decide⟩

/-- C8 (corrected, counterexample): when the label set filtered to the
expected ontology sources of the field is empty,
`validate_text_term_consistency` does not fall back to the unfiltered
labels: it emits a "couldn't find label" warning even though the supplied
text matches an unfiltered label. -/
theorem label_filter_fallback_counterexample :
    "adult" ∈ (fetchAdultPato "EFO:0001272").map (fun d => strLower d.label) ∧
    validate_text_term_consistency fetchAdultPato "adult" "EFO:0001272"
      "developmental_stage" [] =
      ["Couldn't find label in OLS with ontology name(s): efo, uberon"] := by
  refine ⟨by decide, by decide⟩

/-- C8 (amended): the unfiltered-label fallback exists in
`validate_ontology_term` — an empty ontology-name filter falls back to
comparing against the full label set — while
`validate_text_term_consistency` instead reports a "couldn't find label"
warning whenever its expected-ontology filter yields nothing. -/
theorem label_filter_fallback_amended :
    (∀ (fetch : String → List OlsDoc) (term ontology_name text : String),
      term ≠ "restricted access" → fetch term ≠ [] → text ≠ "" →
      (fetch term).filter
        (fun d => strLower d.ontology_name = strLower ontology_name) = [] →
      validate_ontology_term fetch term ontology_name text =
        { errors := [],
          warnings :=
            if strLower text ∈ (fetch term).map (fun d => strLower d.label) then []
            else ["Provided value '" ++ text ++ "' doesn't precisely match '" ++
              ((fetch term).map (fun d => strLower d.label)).headD "unknown" ++
              "' for term '" ++ term ++ "'"],
          field_path := ontology_name ++ ":" ++ term }) ∧
    (∀ (fetch : String → List OlsDoc) (text term : String)
       (expected0 : List String),
      text ≠ "" → term ≠ "" → term ∉ sentinels → fetch term ≠ [] →
      (fetch term).filterMap (fun d =>
        if strLower d.ontology_name ∈ (["efo", "uberon"] : List String) ∧
            strLower d.label ≠ "" then
          some (strLower d.label)
        else none) = [] →
      validate_text_term_consistency fetch text term "developmental_stage"
        expected0 =
        ["Couldn't find label in OLS with ontology name(s): efo, uberon"]) := by
  constructor
  · intro fetch term oname text hra hne htext hfilter
    rw [validate_ontology_term]
    rw [if_neg hra, if_neg hne, if_pos htext]
    rw [hfilter]
    by_cases hmem : strLower text ∈ (fetch term).map (fun d => strLower d.label)
    · simp [hmem]
    · simp [hmem]
  · intro fetch text term expected0 htext hterm hsent hne hfilter
    rw [validate_text_term_consistency]
    rw [if_neg (by simp [htext, hterm, hsent]), if_neg hne]
    simp at hfilter
    simp
    rw [if_pos hfilter]
    decide

/-- C8 witness: a concrete run of both branches of the amended theorem —
the `pato`-sourced `adult` document fails the `efo` filter, and
`validate_ontology_term` falls back to the full label set (no warning),
while `validate_text_term_consistency` reports the missing label. -/
theorem label_filter_fallback_witness :
    ((fetchAdultPato "EFO:0001272").filter
      (fun d => strLower d.ontology_name = strLower "efo") = [] ∧
     validate_ontology_term fetchAdultPato "EFO:0001272" "efo" "adult" =
       { errors := [], warnings := [], field_path := "efo:EFO:0001272" }) ∧
    validate_text_term_consistency fetchAdultPato "juvenile" "EFO:0001272"
      "developmental_stage" [] =
      ["Couldn't find label in OLS with ontology name(s): efo, uberon"] := by
  refine ⟨⟨by decide, ?_⟩, ?_⟩
  · have h := label_filter_fallback_amended.1 fetchAdultPato "EFO:0001272"
      "efo" "adult" (by decide) (by decide) (by decide) (by decide)
    rw [h]
    decide
  · exact label_filter_fallback_amended.2 fetchAdultPato "juvenile"
      "EFO:0001272" [] (by decide) (by decide) (by decide) (by decide)
      (by decide)

/-- C3 (code_bug): a sample that fails field validation is listed among the
invalid results with only its field errors; the relationship findings that
`validate_derived_from_relationships` computed for its identifier are never
attached to it (`validate_samples` walks only the valid list), and the
relationship-error counter stays at zero. -/
theorem invalid_sample_findings_code_bug :
    lookup (org_validate_derived_from_relationships [("organoid", [orgBad])])
      "ORG1" = some [existenceMsg "MISSING"] ∧
    (org_validate_samples fieldValidateRejectOrg1 (fun _ => []) [orgBad] true
      [("organoid", [orgBad])] true).invalid =
      [{ index := 0, sample_name := "ORG1",
         errors := { errors := ["organ_model: Field required"] } }] ∧
    (org_validate_samples fieldValidateRejectOrg1 (fun _ => []) [orgBad] true
      [("organoid", [orgBad])] true).valid = [] ∧
    (org_validate_samples fieldValidateRejectOrg1 (fun _ => []) [orgBad] true
      [("organoid", [orgBad])] true).summary.relationship_errors = 0 := by
  refine ⟨by decide, by decide, by decide, by decide⟩

/-- C5 (corrected, counterexample): a node referencing the dangling
identifier `X` twice receives two existence findings naming `X`, not
exactly one — the check runs per occurrence of the reference. -/
theorem existence_exactly_once_counterexample :
    validate_basic_relationships [] [] {} sampleDupRefs "organism" =
      [existenceMsg "X", existenceMsg "X"] ∧
    (validate_basic_relationships [] [] {} sampleDupRefs "organism").count
      (existenceMsg "X") ≠ 1 := by
  refine ⟨by decide, by decide⟩

/-- C5 (amended): for a reference `X` that is not the restricted-access
sentinel, resolves neither in the graph nor in the BioSamples cache, and
with `treat_missing_biosamples_as_errors` left at its default `true`, the
basic relationship check emits one existence finding naming `X` per
occurrence of `X` in the node's reference list — in particular exactly one
when `X` occurs once. -/
theorem existence_exactly_once_amended (g : List (String × NodeInfo))
    (c : List (String × BioCacheEntry)) (cfg : ValidationConfig)
    (s : RawSample) (st : String) (X : String)
    (hra : X ≠ "restricted access")
    (hg : lookup g X = none) (hc : lookup c X = none)
    (ht : cfg.treat_missing_biosamples_as_errors = true) :
    (validate_basic_relationships g c cfg s st).count (existenceMsg X) =
      (extract_derived_from s).count X := by
  rw [validate_basic_eq_filterMap]
  apply count_filterMap_existence
  · rw [basicFindingFor, if_neg hra]
    rw [hg, hc]
    simp [ht]
  · exact basicFindingFor_shape g c cfg s st


/-- C5 witness: the amended theorem at the duplicate-reference fixture —
the existence finding count equals the number of occurrences (two). -/
theorem existence_exactly_once_witness :
    ("X" ≠ "restricted access" ∧
     lookup ([] : List (String × NodeInfo)) "X" = none ∧
     ({} : ValidationConfig).treat_missing_biosamples_as_errors = true) ∧
    (validate_basic_relationships [] [] {} sampleDupRefs "organism").count
      (existenceMsg "X") = (extract_derived_from sampleDupRefs).count "X" :=
  ⟨⟨by decide, rfl, rfl⟩,
   existence_exactly_once_amended [] [] {} sampleDupRefs "organism" "X"
     (by decide) rfl rfl rfl⟩

/-- C6 (corrected, counterexample): a reference that exists (in the
BioSamples cache) but resolves to an empty material kind — a kind outside
every allowed set — produces no material finding at all, because the
checker tests `if ref_material` before comparing against the table. -/
theorem material_table_counterexample :
    refMaterial [] cacheNoMaterial "SAMEA1" = "" ∧
    "" ∉ allowedFor "organoid" ∧
    validate_basic_relationships [] cacheNoMaterial {} sampleDerivedSAMEA1
      "organoid" = [] := by
  refine ⟨by decide, by decide, by decide⟩

/-- C6 (amended): for every `(materialKind, allowed)` pair of the static
`ALLOWED_RELATIONSHIPS` table, a reference resolving to an allowed material
kind produces no finding; a reference resolving to a material kind outside
the allowed set produces exactly one material finding naming the allowed
set — per occurrence, and only when the resolved kind is non-empty (an
empty kind is skipped). The per-reference findings assemble into the
checker's output in reference-list order. -/
theorem material_table_amended :
    (∀ (mk : String) (allowed : List String) (ap : String)
       (g : List (String × NodeInfo)) (c : List (String × BioCacheEntry))
       (cfg : ValidationConfig) (s : RawSample) (st : String)
       (ref : String) (node : NodeInfo),
       (mk, allowed) ∈ ALLOWED_RELATIONSHIPS → ap ∈ allowed →
       extract_material s st = mk → lookup g ref = some node →
       node.material = ap →
       basicFindingFor g c cfg s st ref = none) ∧
    (∀ (mk : String) (allowed : List String)
       (g : List (String × NodeInfo)) (c : List (String × BioCacheEntry))
       (cfg : ValidationConfig) (s : RawSample) (st : String)
       (ref : String) (node : NodeInfo),
       (mk, allowed) ∈ ALLOWED_RELATIONSHIPS →
       extract_material s st = mk → ref ≠ "restricted access" →
       lookup g ref = some node → node.material ∉ allowed →
       node.material ≠ "" →
       basicFindingFor g c cfg s st ref = some (materialMsg ref allowed)) ∧
    (∀ (g : List (String × NodeInfo)) (c : List (String × BioCacheEntry))
       (cfg : ValidationConfig) (s : RawSample) (st : String),
       validate_basic_relationships g c cfg s st =
         (extract_derived_from s).filterMap (basicFindingFor g c cfg s st)) := by
  have htable : ∀ (mk : String) (allowed : List String),
      (mk, allowed) ∈ ALLOWED_RELATIONSHIPS → allowedFor mk = allowed := by
    intro mk allowed hmem
    rw [allowedFor, lookup_eq_of_mem_nodup (by decide) hmem]
    rfl
  refine ⟨?_, ?_, fun g c cfg s st => validate_basic_eq_filterMap g c cfg s st⟩
  · intro mk allowed ap g c cfg s st ref node hmem hap hmat hl hnm
    by_cases hra : ref = "restricted access"
    · rw [basicFindingFor, if_pos hra]
    · rw [basicFindingFor, if_neg hra]
      rw [if_neg (by simp [hl])]
      have hrm : refMaterial g c ref = ap := by simp [refMaterial, hl, hnm]
      rw [hrm, hmat, htable mk allowed hmem]
      simp [hap]
  · intro mk allowed g c cfg s st ref node hmem hmat hra hl hout hne
    rw [basicFindingFor, if_neg hra]
    rw [if_neg (by simp [hl])]
    have hrm : refMaterial g c ref = node.material := by simp [refMaterial, hl]
    rw [hrm, hmat, htable mk allowed hmem]
    rw [if_pos ⟨hne, hout⟩]

/-- C6 witness: the amended theorem at concrete fixtures — an organoid
deriving from a `cell culture` node yields no finding, while deriving from
an `organism` node yields exactly the material finding naming the allowed
set. -/
theorem material_table_witness :
    (("organoid", ["specimen from organism", "cell culture", "cell line"]) ∈
       ALLOWED_RELATIONSHIPS ∧
     extract_material sampleDerivedP "organoid" = "organoid") ∧
    basicFindingFor gMatOK [] {} sampleDerivedP "organoid" "P" = none ∧
    basicFindingFor gMatBad [] {} sampleDerivedP "organoid" "P" =
      some (materialMsg "P"
        ["specimen from organism", "cell culture", "cell line"]) :=
  ⟨⟨by decide, rfl⟩,
   material_table_amended.1 "organoid"
     ["specimen from organism", "cell culture", "cell line"] "cell culture"
     gMatOK [] {} sampleDerivedP "organoid" "P" { material := "cell culture" }
     (by decide) (by decide) rfl rfl rfl,
   material_table_amended.2.1 "organoid"
     ["specimen from organism", "cell culture", "cell line"]
     gMatBad [] {} sampleDerivedP "organoid" "P" { material := "organism" }
     (by decide) rfl (by decide) rfl (by decide) (by decide)⟩

/-- C1 (corrected, counterexample): in
`RelationshipValidator._validate_basic_relationships` the sentinel does not
short-circuit the whole node: a node whose reference list is
`["restricted access", "X"]` still gets an existence finding for `X`. -/
theorem restricted_sentinel_counterexample :
    "restricted access" ∈ extract_derived_from sampleRestrictedMixed ∧
    validate_basic_relationships [] [] {} sampleRestrictedMixed "organism" =
      [existenceMsg "X"] := by
  refine ⟨by decide, by decide⟩

/-- C1 (amended): `SpecimenValidator.validate_derived_from_relationships`
skips a node entirely when any of its references is `"restricted access"`
(the node gets no entry in the error map); in
`RelationshipValidator._validate_basic_relationships` the sentinel skips
only that one reference; and in both checkers a node whose reference list
is exactly `["restricted access"]` receives no existence, material or
species finding (nor any cycle/chain finding) regardless of its other
data. -/
theorem restricted_sentinel_amended :
    (∀ (all_samples : List (String × List SpecSample)) (name : String)
       (info : RelInfo) (refs : List String),
       lookup (spec_collect_relationships all_samples) name = some info →
       info.relationships = some refs →
       "restricted access" ∈ refs →
       lookup (spec_validate_derived_from_relationships all_samples) name =
         none) ∧
    (∀ (g : List (String × NodeInfo)) (c : List (String × BioCacheEntry))
       (cfg : ValidationConfig) (s : RawSample) (st : String),
       extract_derived_from s = ["restricted access"] →
       validate_basic_relationships g c cfg s st = []) ∧
    (∀ (g : List (String × NodeInfo)) (cfg : ValidationConfig)
       (name : String) (node : NodeInfo),
       lookup g name = some node →
       node.relationships = ["restricted access"] →
       detect_circular_references g name = [] ∧
       validate_relationship_chains g cfg name = []) := by
  refine ⟨?_, ?_, ?_⟩
  · intro all_samples name info refs hl hrel hra
    rw [spec_validate_derived_from_relationships]
    exact check_collected_skips_restricted (spec_collect_keys_nodup all_samples)
      hl hrel hra
  · intro g c cfg s st h
    rw [validate_basic_eq_filterMap, h]
    rfl
  · intro g cfg name node hl hrel
    constructor
    · rw [detect_circular_references]
      have hcyc : hasCycle g (g.length + 1) name [] [] = none := by
        simp [hasCycle, hl, hrel, firstSome]
      rw [hcyc]
    · rw [validate_relationship_chains]
      simp [validate_chain, hl, hrel]

/-- C1 witness: the amended theorem at concrete fixtures — the specimen
node `S1` with references `["restricted access", "X"]` gets no entry, the
generic checker returns nothing for a `["restricted access"]` reference
list, and the cycle/chain walks return nothing for such a node. -/
theorem restricted_sentinel_witness :
    (lookup (spec_collect_relationships specBatchRestricted) "S1" =
       some { material := "specimen from organism",
              relationships := some ["restricted access", "X"] } ∧
     lookup (spec_validate_derived_from_relationships specBatchRestricted)
       "S1" = none) ∧
    validate_basic_relationships [] [] {} sampleRestrictedOnly "organism" =
      [] ∧
    detect_circular_references gRestrictedNode "A" = [] ∧
    validate_relationship_chains gRestrictedNode {} "A" = [] := by
  refine ⟨⟨by decide, ?_⟩, ?_, ?_, ?_⟩
  · exact restricted_sentinel_amended.1 specBatchRestricted "S1"
      { material := "specimen from organism",
        relationships := some ["restricted access", "X"] }
      ["restricted access", "X"] (by decide) rfl (by decide)
  · exact restricted_sentinel_amended.2.1 [] [] {} sampleRestrictedOnly
      "organism" (by decide)
  · exact (restricted_sentinel_amended.2.2 gRestrictedNode {} "A"
      { material := "organism", relationships := ["restricted access"],
        sample_type := "organism" } (by decide) rfl).1
  · exact (restricted_sentinel_amended.2.2 gRestrictedNode {} "A"
      { material := "organism", relationships := ["restricted access"],
        sample_type := "organism" } (by decide) rfl).2

/-- C4 (corrected, counterexample): in a graph where `A` and `B` reference
each other but `A`'s reference list starts with `C` (which also closes a
cycle with `A`), the cycle reported for `A` is `A -> C -> A`: both `A` and
`B` do receive cycle findings, but the reported path does not contain `B`
at all. -/
theorem cycle_symmetry_counterexample :
    "B" ∈ ((lookup gACB "A").getD {}).relationships ∧
    "A" ∈ ((lookup gACB "B").getD {}).relationships ∧
    detect_circular_references gACB "A" = [cycleMsg ["A", "C", "A"]] ∧
    "B" ∉ (["A", "C", "A"] : List String) := by
  refine ⟨by decide, by decide, by decide, by decide⟩

/-- C4 (amended): whenever `A` and `B` are graph nodes referencing each
other (a two-node cycle, neither identifier the restricted-access
sentinel), the cycle detector emits a cycle finding for `A` and a cycle
finding for `B`; and when the two-node cycle is the only edge out of each
(`A`'s references are exactly `[B]` and `B`'s exactly `[A]`), the reported
paths are exactly `A -> B -> A` and `B -> A -> B` — each containing the two
identifiers once plus the repeated closing node. With further references
the walk may report a different cycle first. -/
theorem cycle_symmetry_amended (g : List (String × NodeInfo)) (A B : String)
    (nA nB : NodeInfo)
    (hA : lookup g A = some nA) (hB : lookup g B = some nB)
    (hBmem : B ∈ nA.relationships) (hAmem : A ∈ nB.relationships)
    (hne : A ≠ B)
    (hAra : A ≠ "restricted access") (hBra : B ≠ "restricted access") :
    (detect_circular_references g A ≠ [] ∧
     detect_circular_references g B ≠ []) ∧
    (nA.relationships = [B] → nB.relationships = [A] →
      detect_circular_references g A = [cycleMsg [A, B, A]] ∧
      detect_circular_references g B = [cycleMsg [B, A, B]]) := by
  have hlen : 2 ≤ g.length := two_le_length_of_lookup_pair hA hB hne
  obtain ⟨f, hf⟩ : ∃ f, g.length + 1 = f + 3 := ⟨g.length - 2, by omega⟩
  have main : ∀ (X Y : String) (nX nY : NodeInfo),
      lookup g X = some nX → lookup g Y = some nY →
      Y ∈ nX.relationships → X ∈ nY.relationships → X ≠ Y →
      X ≠ "restricted access" → Y ≠ "restricted access" →
      detect_circular_references g X ≠ [] := by
    intro X Y nX nY hX hY hYm hXm hXY hXra hYra
    rcases hc : hasCycle g (g.length + 1) X [] [] with _ | cy
    · exfalso
      rw [hf] at hc
      have s1 := hasCycle_none_step hc (by simp) hX Y hYm hYra
      simp only [List.nil_append] at s1
      have hYX : Y ∉ ([X] : List String) := by simp [Ne.symm hXY]
      have s2 := hasCycle_none_step s1 hYX hY X hXm hXra
      simp only [List.singleton_append] at s2
      rw [hasCycle] at s2
      rw [if_pos (by simp)] at s2
      cases s2
    · have hcne := hasCycle_some_ne_nil hc
      rw [detect_circular_references, hc]
      simp [hcne]
  have exact_part : ∀ (X Y : String) (nX nY : NodeInfo),
      lookup g X = some nX → lookup g Y = some nY →
      nX.relationships = [Y] → nY.relationships = [X] → X ≠ Y →
      X ≠ "restricted access" → Y ≠ "restricted access" →
      detect_circular_references g X = [cycleMsg [X, Y, X]] := by
    intro X Y nX nY hX hY hXr hYr hXY hXra hYra
    have hstep : hasCycle g (g.length + 1) X [] [] = some [X, Y, X] := by
      rw [hf]
      simp [hasCycle, firstSome, hX, hY, hXr, hYr, hXra, hYra,
        Ne.symm hXY, cycleFrom, idxOf]
    rw [detect_circular_references, hstep]
    simp
  refine ⟨⟨main A B nA nB hA hB hBmem hAmem hne hAra hBra,
           main B A nB nA hB hA hAmem hBmem (Ne.symm hne) hBra hAra⟩, ?_⟩
  intro hArefs hBrefs
  exact ⟨exact_part A B nA nB hA hB hArefs hBrefs hne hAra hBra,
         exact_part B A nB nA hB hA hBrefs hArefs (Ne.symm hne) hBra hAra⟩

/-- C4 witness: the amended theorem on the isolated two-node cycle
`gAB` — both nodes receive a finding and the reported paths are exactly
`A -> B -> A` and `B -> A -> B`. -/
theorem cycle_symmetry_witness :
    detect_circular_references gAB "A" = [cycleMsg ["A", "B", "A"]] ∧
    detect_circular_references gAB "B" ≠ [] := by
  have h := cycle_symmetry_amended gAB "A" "B"
    { material := "organism", relationships := ["B"],
      sample_type := "organism", organism := "Sus scrofa" }
    { material := "organism", relationships := ["A"],
      sample_type := "organism", organism := "Sus scrofa" }
    rfl rfl (by decide) (by decide) (by decide) (by decide) (by decide)
  exact ⟨(h.2 rfl rfl).1, h.1.2⟩

/-- C2 (corrected, counterexample): for a node whose first reference has an
incompatible material and whose second reference is dangling, the findings
list is material-then-existence — the claimed category order
existence → material does not hold, because the basic pass interleaves the
two categories per reference. -/
theorem finding_order_counterexample :
    (lookup (validate_all_relationships [] {} batchC2) "A").getD [] =
      [materialMsg "S" ["specimen from organism", "cell culture", "cell line"],
       existenceMsg "X"] ∧
    ¬ claimedFindingOrder
        [materialMsg "S" ["specimen from organism", "cell culture", "cell line"],
         existenceMsg "X"] := by
  refine ⟨by decide, ?_⟩
  unfold claimedFindingOrder
  rw [List.chain'_pair]
  decide

/-- C2 (amended): per node the checker appends, in this fixed order: the
basic findings — exactly the per-reference existence-or-material findings
in reference-list order, at most one per reference, with the two categories
interleaved per reference rather than grouped —, then at most one cycle
finding, then the chain findings, each of which is a species-mismatch or a
depth-exceeded message (so species findings follow cycle findings). -/
theorem finding_order_amended :
    (∀ (g : List (String × NodeInfo)) (c : List (String × BioCacheEntry))
       (cfg : ValidationConfig) (s : RawSample) (st : String),
       validate_basic_relationships g c cfg s st =
         (extract_derived_from s).filterMap (basicFindingFor g c cfg s st)) ∧
    (∀ (g : List (String × NodeInfo)) (c : List (String × BioCacheEntry))
       (cfg : ValidationConfig) (s : RawSample) (st : String) (ref : String),
       basicFindingFor g c cfg s st ref = none ∨
       basicFindingFor g c cfg s st ref = some (existenceMsg ref) ∨
       ∃ al, basicFindingFor g c cfg s st ref = some (materialMsg ref al)) ∧
    (∀ (g : List (String × NodeInfo)) (name : String),
       detect_circular_references g name = [] ∨
       ∃ cy, detect_circular_references g name = [cycleMsg cy]) ∧
    (∀ (g : List (String × NodeInfo)) (cfg : ValidationConfig) (fuel : Nat)
       (cur : String) (depth : Nat) (e : String),
       e ∈ validate_chain g cfg fuel cur depth →
       (∃ a b oa ob, e = speciesMsg a b oa ob) ∨
         e = depthMsg cfg.max_relationship_depth) := by
  refine ⟨validate_basic_eq_filterMap, basicFindingFor_shape, ?_, ?_⟩
  · intro g name
    rw [detect_circular_references]
    cases hc : hasCycle g (g.length + 1) name [] [] with
    | none => exact Or.inl rfl
    | some cy =>
      by_cases hnil : cy = []
      · exact Or.inl (by simp [hnil])
      · exact Or.inr ⟨cy, by simp [hnil]⟩
  · intro g cfg fuel cur depth e he
    exact validate_chain_shape fuel cur depth e he

/-- C2 witness: the amended theorem instantiated concretely — the basic
pass over the duplicate-reference sample equals its per-reference map, the
cycle detector on `gAB` returns a singleton cycle finding, and a concrete
species-mismatch chain finding has the chain shape. -/
theorem finding_order_witness :
    (validate_basic_relationships [] [] {} sampleDupRefs "organism" =
      (extract_derived_from sampleDupRefs).filterMap
        (basicFindingFor [] [] {} sampleDupRefs "organism")) ∧
    (detect_circular_references gAB "A" = [] ∨
      ∃ cy, detect_circular_references gAB "A" = [cycleMsg cy]) ∧
    ((∃ a b oa ob,
        speciesMsg "A" "B" "Sus scrofa" "Bos taurus" = speciesMsg a b oa ob) ∨
      speciesMsg "A" "B" "Sus scrofa" "Bos taurus" =
        depthMsg (({} : ValidationConfig).max_relationship_depth)) := by
  refine ⟨finding_order_amended.1 [] [] {} sampleDupRefs "organism",
    finding_order_amended.2.2.1 gAB "A", ?_⟩
  exact finding_order_amended.2.2.2 gSpecies {} 12 "A" 0
    (speciesMsg "A" "B" "Sus scrofa" "Bos taurus") (by decide)

/-- C7 (confirmed): the relationship walks terminate on every finite
graph, cyclic ones included — any fuel beyond the stated bound computes the
same value, so the recursion depth is bounded (by
`max_relationship_depth + 2` for the chain walk and by the number of
unvisited graph keys for the cycle walk); and any reference chain of
`max_relationship_depth + 1` hops makes the chain validator emit the
distinct depth-exceeded finding for the start node. -/
theorem walk_termination_theorem :
    (∀ (g : List (String × NodeInfo)) (cfg : ValidationConfig)
       (fuel₁ fuel₂ : Nat) (cur : String) (depth : Nat),
       cfg.max_relationship_depth + 2 ≤ depth + fuel₁ → 1 ≤ fuel₁ →
       cfg.max_relationship_depth + 2 ≤ depth + fuel₂ → 1 ≤ fuel₂ →
       validate_chain g cfg fuel₁ cur depth =
         validate_chain g cfg fuel₂ cur depth) ∧
    (∀ (g : List (String × NodeInfo)) (fuel : Nat) (cur : String)
       (visited path : List String),
       remainingKeys g visited + 1 ≤ fuel →
       hasCycle g fuel cur visited path =
         hasCycle g (remainingKeys g visited + 1) cur visited path) ∧
    (∀ (g : List (String × NodeInfo)) (cfg : ValidationConfig)
       (start : String) (hops : List String),
       refChainB g start hops = true →
       hops.length = cfg.max_relationship_depth + 1 →
       depthMsg cfg.max_relationship_depth ∈
         validate_relationship_chains g cfg start) := by
  refine ⟨?_, ?_, ?_⟩
  · intro g cfg fuel₁ fuel₂ cur depth h1 h2 h3 h4
    exact validate_chain_stable fuel₁ fuel₂ cur depth h1 h2 h3 h4
  · intro g fuel cur visited path h
    exact hasCycle_stable fuel cur visited path h
  · intro g cfg start hops hchain hlen
    rw [validate_relationship_chains]
    exact depthMsg_mem_of_chain hops start 0 _ hchain (by omega) (by omega)

/-- C7 witness: on the cyclic two-node graph `gAB`, surplus fuel does not
change either walk's result, and an eleven-hop chain around the cycle
produces the depth-exceeded finding. -/
theorem walk_termination_witness :
    validate_chain gAB {} 12 "A" 0 = validate_chain gAB {} 30 "A" 0 ∧
    hasCycle gAB 7 "A" [] [] =
      hasCycle gAB (remainingKeys gAB [] + 1) "A" [] [] ∧
    (refChainB gAB "A" hops11 = true ∧
     depthMsg 10 ∈ validate_relationship_chains gAB {} "A") := by
  refine ⟨?_, ?_, by decide, ?_⟩
  · exact walk_termination_theorem.1 gAB {} 12 30 "A" 0 (by decide)
      (by decide) (by decide) (by decide)
  · exact walk_termination_theorem.2.1 gAB 7 "A" [] [] (by decide)
  · exact walk_termination_theorem.2.2 gAB {} "A" hops11 (by decide) rfl

end FaangValidation
